import Mathlib

/-!
Shallow embedding of `src/ts/utils/grid.ts` (classes `Grid2D` and `Grid3D`).

Modelling decisions, shared by all definitions below:
* JS numbers that hold coordinates and sizes are modelled as `Int` (coordinates,
  which the code compares against `0` and against `width - 1` etc.) and `Nat`
  (the dimensions stored in the object, which are non-negative by construction).
* The JS backing array `#data` is a `List (Option T)`: a slot `none` is the JS
  value `undefined` (the default fill of `new Array(n).fill(undefined)` and the
  result of reading past the end of the array); `some v` is a stored value.
  Reading index `i` of the array is `(data[i]?).join`: an index outside the list
  yields `none` (JS `undefined`), a stored slot yields its contents.
* The private fields `#offset`, `#size`, `#yMod`, `#zMod` become ordinary
  structure fields; `Grid2D.WF` / `Grid3D.WF` record the relations the
  constructor establishes between them, and `make` (the constructor) is proved
  to satisfy them.
* The numeric-only operations (`increment`, `incrementLine`) are modelled on
  grids of `Int` cells.  JS would turn an `undefined` cell into `NaN` when
  incremented; every grid these operations are used on is constructed with a
  numeric fill, so every cell is `some _` and the `NaN` case never arises; the
  model leaves an absent cell absent.  A JS increment at a negative index would
  write a non-element property (invisible to every other operation), and one
  past the end of the array would lengthen it; neither is reachable from the
  operations verified here, and the model makes both a no-op on the store.
-/

/-- Modelled from the spec: the helper `range` is imported by the source from
`./range`, which is not part of this repository snapshot.  The spec fixes its
meaning: `horizontals()` has "one entry per row y in `[0,height)`", and the
source produces those rows as `range(0, this.height - 1).map(...)`, so
`range(a, b)` is the inclusive integer range `[a, a+1, ..., b]` (empty when
`b < a`). -/
def range (a b : Int) : List Int :=
  (List.range (b - a + 1).toNat).map (fun (i : Nat) => a + (i : Int))

/-- The state of a `Grid2D<T>` object: public `height`/`width` and the private
fields `#offset`, `#size`, `#data`. -/
structure Grid2D (T : Type) where
  height : Nat
  width : Nat
  offset : Nat
  size : Nat
  data : List (Option T)

/-- `new Grid2D(height, width, fillValue)`:
`#offset = Math.max(height, width)`, `#size = #offset * #offset`,
`#data = new Array(#size).fill(fillValue)`. -/
def Grid2D.make (T : Type) (height width : Nat) (fillValue : Option T) : Grid2D T :=
  let offset := max height width
  ⟨height, width, offset, offset * offset, List.replicate (offset * offset) fillValue⟩

/-- The relations between the fields that the constructor establishes and that
every operation preserves (no operation changes the dimensions, and `set` at an
in-range index keeps the store length). -/
def Grid2D.WF {T : Type} (g : Grid2D T) : Prop :=
  g.offset = max g.height g.width ∧ g.size = g.offset * g.offset ∧
    g.data.length = g.size

/-- `get(x, y)`: bounds-checked read; out of `[0,width)×[0,height)` the JS
method falls through to `return;`, i.e. `undefined` (`none`). -/
def Grid2D.get {T : Type} (g : Grid2D T) (x y : Int) : Option T :=
  if x < 0 ∨ x > (g.width : Int) - 1 then none
  else if y < 0 ∨ y > (g.height : Int) - 1 then none
  else (g.data[(x + y * (g.offset : Int)).toNat]?).join

/-- `set(x, y, value)`: bounds-checked write; out of range the method returns
without touching the store. -/
def Grid2D.set {T : Type} (g : Grid2D T) (x y : Int) (value : T) : Grid2D T :=
  if x < 0 ∨ x > (g.width : Int) - 1 then g
  else if y < 0 ∨ y > (g.height : Int) - 1 then g
  else { g with data := g.data.set (x + y * (g.offset : Int)).toNat (some value) }

/-- `increment(x, y)` ("only available iff T extends number"): unchecked
`this.#data[x + y * this.#offset]++`.  See the file comment for the treatment
of indices outside the store. -/
def Grid2D.increment (g : Grid2D Int) (x y : Int) : Grid2D Int :=
  let i := x + y * (g.offset : Int)
  if i < 0 then g
  else { g with data := g.data.set i.toNat ((g.data[i.toNat]?).join.map (fun n => n + 1)) }

/-- The local `slope` helper of `incrementLine`:
`start === end ? 0 : (start > end ? -1 : 1)` (named `Grid2D.slope` because the
root name `slope` is taken by Mathlib). -/
def Grid2D.slope (s e : Int) : Int := if s = e then 0 else if s > e then -1 else 1

/-- `incrementLine(x1, y1, x2, y2)`: per-axis step `slope`, loop
`for (i = 0; i <= max(|x1-x2|, |y1-y2|); i++) increment(x1 + i*dx, y1 + i*dy)`. -/
def Grid2D.incrementLine (g : Grid2D Int) (x1 y1 x2 y2 : Int) : Grid2D Int :=
  let dx := Grid2D.slope x1 x2
  let dy := Grid2D.slope y1 y2
  let len := max (x1 - x2).natAbs (y1 - y2).natAbs
  (List.range (len + 1)).foldl
    (fun acc i => acc.increment (x1 + (i : Int) * dx) (y1 + (i : Int) * dy)) g

/-- `filter(predicate)`: `this.#data.filter(predicate)` — the predicate runs
over the whole backing store (all `#size` slots, padding included), and a slot
may hold `undefined`, so the predicate takes an `Option T`. -/
def Grid2D.filter {T : Type} (g : Grid2D T) (p : Option T → Bool) : List (Option T) :=
  g.data.filter p

/-- `count(predicate) = filter(predicate).length`. -/
def Grid2D.count {T : Type} (g : Grid2D T) (p : Option T → Bool) : Nat :=
  (g.filter p).length

/-- `find(predicate)`: `idx = #data.findIndex(predicate)` (`-1` when no slot
matches), then `y = Math.floor(idx / #offset)`, `x = idx - y * #offset`.
`Int.fdiv` is floor division, which is exactly `Math.floor` of the real
quotient for a nonzero divisor; a grid with `offset = 0` (both dimensions `0`)
would divide by zero in JS (`NaN`/`-Infinity` coordinates), which the integer
model does not represent — the claims below assume positive dimensions, as the
spec's data model does. -/
def Grid2D.find {T : Type} (g : Grid2D T) (p : Option T → Bool) : Int × Int :=
  let idx : Int := match g.data.findIdx? p with
    | some i => (i : Int)
    | none => -1
  let y := Int.fdiv idx (g.offset : Int)
  let x := idx - y * (g.offset : Int)
  (x, y)

/-- `findAll(predicate)`: scans `idx` over `[0, #size)` of the backing store
(padding slots included) and converts each matching index to coordinates with
the same `Math.floor` arithmetic as `find`. -/
def Grid2D.findAll {T : Type} (g : Grid2D T) (p : Option T → Bool) : List (Int × Int) :=
  (List.range g.size).filterMap (fun (idx : Nat) =>
    if p ((g.data[idx]?).join) then
      let y := ((idx : Int)).fdiv (g.offset : Int)
      some ((idx : Int) - y * (g.offset : Int), y)
    else none)

/-- `adjacent(x, y)`: pushes, in this order, left / right / up / down, each
guarded by the corresponding bound check of the source. -/
def Grid2D.adjacent {T : Type} (g : Grid2D T) (x y : Int) : List (Int × Int) :=
  (if x > 0 then [(x - 1, y)] else []) ++
  (if x < (g.width : Int) - 1 then [(x + 1, y)] else []) ++
  (if y > 0 then [(x, y - 1)] else []) ++
  (if y < (g.height : Int) - 1 then [(x, y + 1)] else [])

/-- The `diagLength` computed inside `diagonals()`/`antiDiagonals()` (the two
methods use the same expression):
`min(maxDiagLength, diagIdx < numDiags / 2 ? diagIdx + 1 : numDiags - diagIdx + 1)`
with `numDiags = width + height - 2` and `maxDiagLength = min(width, height)`.
JS divides `numDiags / 2` exactly; for integers `d < numDiags / 2` is the same
as `2 * d < numDiags`, which is how the model writes it. -/
def diagLen (w h d : Int) : Int :=
  min (min w h) (if 2 * d < w + h - 2 then d + 1 else w + h - 2 - d + 1)

/-- `startX` of `diagonals()`: `diagIdx < height ? 0 : diagIdx - height + 1`. -/
def diagStartX (h d : Int) : Int := if d < h then 0 else d - h + 1

/-- `startY` of `diagonals()`: `diagIdx < height ? height - diagIdx - 1 : 0`. -/
def diagStartY (h d : Int) : Int := if d < h then h - d - 1 else 0

/-- `diagonals()`: maps `diagIdx` over `range(0, numDiags)` and each diagonal
over `range(0, diagLength - 1)`, reading `get(startX + idx, startY + idx)`. -/
def Grid2D.diagonals {T : Type} (g : Grid2D T) : List (List (Option T)) :=
  (range 0 ((g.width : Int) + (g.height : Int) - 2)).map (fun d =>
    (range 0 (diagLen (g.width : Int) (g.height : Int) d - 1)).map (fun i =>
      g.get (diagStartX (g.height : Int) d + i) (diagStartY (g.height : Int) d + i)))

/-- The coordinates `diagonals()` reads, in the order it reads them. -/
def diagCoords (w h : Int) : List (List (Int × Int)) :=
  (range 0 (w + h - 2)).map (fun d =>
    (range 0 (diagLen w h d - 1)).map (fun i =>
      (diagStartX h d + i, diagStartY h d + i)))

/-- `startX` of `antiDiagonals()`: `diagIdx < width ? diagIdx : width - 1`. -/
def antiStartX (w d : Int) : Int := if d < w then d else w - 1

/-- `startY` of `antiDiagonals()`: `diagIdx < width ? 0 : diagIdx - height + 1`. -/
def antiStartY (w h d : Int) : Int := if d < w then 0 else d - h + 1

/-- `antiDiagonals()`: same outer/inner ranges and `diagLength` as
`diagonals()`, stepping `x` backward and `y` forward from the start. -/
def Grid2D.antiDiagonals {T : Type} (g : Grid2D T) : List (List (Option T)) :=
  (range 0 ((g.width : Int) + (g.height : Int) - 2)).map (fun d =>
    (range 0 (diagLen (g.width : Int) (g.height : Int) d - 1)).map (fun i =>
      g.get (antiStartX (g.width : Int) d - i)
        (antiStartY (g.width : Int) (g.height : Int) d + i)))

/-- The coordinates `antiDiagonals()` reads, in the order it reads them. -/
def antiDiagCoords (w h : Int) : List (List (Int × Int)) :=
  (range 0 (w + h - 2)).map (fun d =>
    (range 0 (diagLen w h d - 1)).map (fun i =>
      (antiStartX w d - i, antiStartY w h d + i)))

/-- The state of a `Grid3D` object (numeric element type): public dimensions
and the private fields `#size`, `#yMod`, `#zMod`, `#data`. -/
structure Grid3D where
  height : Nat
  width : Nat
  depth : Nat
  size : Nat
  yMod : Nat
  zMod : Nat
  data : List (Option Int)

/-- `new Grid3D(height, width, depth, fillValue = 0)`:
`#size = height * width * depth`, `#yMod = height`, `#zMod = height * width`,
store filled with the (numeric) fill value. -/
def Grid3D.make (height width depth : Nat) (fillValue : Int) : Grid3D :=
  ⟨height, width, depth, height * width * depth, height, height * width,
    List.replicate (height * width * depth) (some fillValue)⟩

/-- Field relations established by the `Grid3D` constructor. -/
def Grid3D.WF (g : Grid3D) : Prop :=
  g.yMod = g.height ∧ g.zMod = g.height * g.width ∧
    g.size = g.height * g.width * g.depth ∧ g.data.length = g.size

/-- `get(x, y, z)`: unchecked `this.#data[x + y*#yMod + z*#zMod]`; a negative
or past-the-end index reads JS `undefined` (`none`). -/
def Grid3D.get (g : Grid3D) (x y z : Int) : Option Int :=
  let i := x + y * (g.yMod : Int) + z * (g.zMod : Int)
  if i < 0 then none else (g.data[i.toNat]?).join

/-- `set(x, y, z, value)`: unchecked write at the same index expression as
`get`.  A JS write at a negative index stores a non-element property and one
past the end lengthens the array; neither is reachable from the claims below,
and the model leaves the store unchanged there. -/
def Grid3D.set (g : Grid3D) (x y z : Int) (value : Int) : Grid3D :=
  let i := x + y * (g.yMod : Int) + z * (g.zMod : Int)
  if i < 0 then g
  else { g with data := g.data.set i.toNat (some value) }

/-- `increment(x, y, z)`: the source indexes with
`this.#data[x + y * this.#yMod, z * this.#zMod]++`.  The JS comma operator
evaluates `x + y * #yMod`, discards it, and yields `z * #zMod`, so the
effective store index is `z * #zMod` — the `x` and `y` contributions are
ignored. -/
def Grid3D.increment (g : Grid3D) (x y z : Int) : Grid3D :=
  let i := z * (g.zMod : Int)
  if i < 0 then g
  else { g with data := g.data.set i.toNat ((g.data[i.toNat]?).join.map (fun n => n + 1)) }

/-! ### Basic facts about the embedding -/

theorem grid2D_make_WF {T : Type} (h w : Nat) (fv : Option T) : (Grid2D.make T h w fv).WF :=
  ⟨rfl, rfl, List.length_replicate _ _⟩

theorem grid3D_make_WF (h w d : Nat) (fv : Int) : (Grid3D.make h w d fv).WF :=
  ⟨rfl, rfl, rfl, List.length_replicate _ _⟩

theorem mem_range_iff {a b x : Int} : x ∈ range a b ↔ a ≤ x ∧ x ≤ b := by
  constructor
  · intro hx
    obtain ⟨i, hi, rfl⟩ := List.mem_map.mp hx
    have hlt : i < (b - a + 1).toNat := List.mem_range.mp hi
    omega
  · intro h
    exact List.mem_map.mpr ⟨(x - a).toNat, List.mem_range.mpr (by omega), by omega⟩

theorem range_nodup (a b : Int) : (range a b).Nodup :=
  List.Nodup.map (fun i j hij => by omega) (List.nodup_range _)

theorem range_length (a b : Int) : (range a b).length = (b - a + 1).toNat := by
  unfold range
  rw [List.length_map, List.length_range]

theorem range_getElem? {a b : Int} {i : Nat} (h : i < (b - a + 1).toNat) :
    (range a b)[i]? = some (a + (i : Int)) := by
  unfold range
  rw [List.getElem?_map, List.getElem?_range h]
  rfl

theorem toNat_lt_of_int {a : Int} {n : Nat} (h0 : 0 ≤ a) (h : a < (n : Int)) :
    a.toNat < n := by
  omega

theorem toNat_inj_of_nonneg {a b : Int} (ha : 0 ≤ a) (hb : 0 ≤ b)
    (h : a.toNat = b.toNat) : a = b := by
  omega

/-- The linear index `x + y * offset` is injective as long as both `x`
coordinates lie in `[0, offset)`. -/
theorem index_inj {off : Nat} {x y x2 y2 : Int} (hx0 : 0 ≤ x) (hxw : x < (off : Int))
    (hx20 : 0 ≤ x2) (hx2w : x2 < (off : Int))
    (h : x + y * (off : Int) = x2 + y2 * (off : Int)) : x = x2 ∧ y = y2 := by
  have hx : x % (off : Int) = x := Int.emod_eq_of_lt hx0 hxw
  have hx2 : x2 % (off : Int) = x2 := Int.emod_eq_of_lt hx20 hx2w
  have e1 : (x + y * (off : Int)) % (off : Int) = x % (off : Int) := Int.add_mul_emod_self
  have e2 : (x2 + y2 * (off : Int)) % (off : Int) = x2 % (off : Int) := Int.add_mul_emod_self
  have hxx : x = x2 := by rw [← hx, ← hx2, ← e1, ← e2, h]
  refine ⟨hxx, ?_⟩
  have h2 : y * (off : Int) = y2 * (off : Int) := by
    have := h
    nlinarith [h, hxx]
  exact mul_right_cancel₀ (by omega : (off : Int) ≠ 0) h2

theorem idx_lt_sq {off : Nat} {x y : Int} (hx0 : 0 ≤ x) (hxw : x < (off : Int))
    (hy0 : 0 ≤ y) (hyh : y < (off : Int)) :
    (x + y * (off : Int)).toNat < off * off := by
  apply toNat_lt_of_int (by positivity)
  push_cast
  nlinarith [mul_le_mul_of_nonneg_right (show y ≤ (off : Int) - 1 by omega)
    (show (0 : Int) ≤ (off : Int) by positivity)]

theorem fdiv_neg_one {n : Int} (hn : 0 < n) : Int.fdiv (-1) n = -1 := by
  obtain ⟨m, rfl⟩ : ∃ m : Nat, n = ((m + 1 : Nat) : Int) := ⟨(n.toNat - 1), by omega⟩
  show Int.fdiv (Int.negSucc 0) (Int.ofNat (m + 1)) = -1
  rw [Int.fdiv]
  simp [Nat.zero_div]

/-! ### Claims -/

/-- **C2**: for any coordinate with `x < 0 ∨ x ≥ width ∨ y < 0 ∨ y ≥ height`,
`Grid2D.get` returns the absent value and `Grid2D.set` leaves the grid
unchanged; both are total functions of the state (the JS methods return
without touching anything, they never throw). -/
theorem grid2D_oob_get_set {T : Type} (g : Grid2D T) (x y : Int) (v : T)
    (h : x < 0 ∨ (g.width : Int) ≤ x ∨ y < 0 ∨ (g.height : Int) ≤ y) :
    g.get x y = none ∧ g.set x y v = g := by
  unfold Grid2D.get Grid2D.set
  constructor
  · split_ifs with h1 h2
    · rfl
    · rfl
    · omega
  · split_ifs with h1 h2
    · rfl
    · rfl
    · omega

/-- Witness for C2 at a concrete out-of-range call. -/
theorem grid2D_oob_get_set_witness :
    (Grid2D.make Int 2 2 (some 0)).get 5 0 = none ∧
      (Grid2D.make Int 2 2 (some 0)).set 5 0 7 = Grid2D.make Int 2 2 (some 0) :=
  grid2D_oob_get_set (Grid2D.make Int 2 2 (some 0)) 5 0 7 (by decide)

/-- **C3, counterexample**: on `new Grid2D(1, 2, 0)` (height 1, width 2, so
stride 2 and a 4-slot store), `count` sees all 4 store slots — including the
two padding cells outside the 2×1 rectangle — and `findAll` returns the
padding coordinates `(0,1)` and `(1,1)`, whose `y = 1` is outside
`[0, height) = [0, 1)`.  This refutes the claim that no operation ever
returns a padding value or coordinate. -/
theorem grid2D_padding_cex :
    (Grid2D.make Int 1 2 (some 0)).count (fun v => v == some 0) = 4 ∧
    (Grid2D.make Int 1 2 (some 0)).width * (Grid2D.make Int 1 2 (some 0)).height = 2 ∧
    (Grid2D.make Int 1 2 (some 0)).findAll (fun v => v == some 0) =
      [(0, 0), (1, 0), (0, 1), (1, 1)] ∧
    (Grid2D.make Int 1 2 (some 0)).height = 1 := by
  decide

/-- **C3, amended**: `get` is confined to the `width×height` sub-rectangle
(out-of-range reads are absent), but `filter`/`count`/`findAll` scan the whole
`stride²` backing store: there is a grid with `width ≠ height` whose `count`
exceeds `width*height` and whose `findAll` output contains a coordinate
outside the rectangle. -/
theorem grid2D_padding_amended :
    (∀ (T : Type) (g : Grid2D T) (x y : Int),
      (x < 0 ∨ (g.width : Int) ≤ x ∨ y < 0 ∨ (g.height : Int) ≤ y) →
        g.get x y = none) ∧
    ∃ (g : Grid2D Int) (p : Option Int → Bool),
      g.width ≠ g.height ∧ g.WF ∧ g.width * g.height < g.count p ∧
      ∃ q ∈ g.findAll p, ¬(0 ≤ q.2 ∧ q.2 < (g.height : Int)) := by
  constructor
  · intro T g x y h
    unfold Grid2D.get
    split_ifs with h1 h2
    · rfl
    · rfl
    · omega
  · refine ⟨Grid2D.make Int 1 2 (some 0), fun v => v == some 0, by decide,
      grid2D_make_WF 1 2 (some 0), by decide, (1, 1), by decide, by decide⟩

/-- **C7, counterexample**: on a zero-filled width-4, height-1 grid,
`incrementLine(0, 0, 0, 3)` is the segment from `(0,0)` to `(0,3)` — a
vertical line.  Its unchecked increments hit store indices `0, 4, 8, 12`
(three of them padding cells), so of the grid's four real cells only `(0,0)`
changes; `(1,0)`, `(2,0)`, `(3,0)` keep their old value `0`, contradicting
the claimed result. -/
theorem incrementLine_cex :
    ((Grid2D.make Int 1 4 (some 0)).incrementLine 0 0 0 3).get 0 0 = some 1 ∧
    ((Grid2D.make Int 1 4 (some 0)).incrementLine 0 0 0 3).get 1 0 = some 0 ∧
    ((Grid2D.make Int 1 4 (some 0)).incrementLine 0 0 0 3).get 2 0 = some 0 ∧
    ((Grid2D.make Int 1 4 (some 0)).incrementLine 0 0 0 3).get 3 0 = some 0 := by
  decide

/-- **C7, amended**: the horizontal call `incrementLine(0, 0, 3, 0)` on the
zero-filled width-4, height-1 grid increments exactly the cells
`(0,0) .. (3,0)` — all four in-range cells read back `1`, exactly four store
slots hold `1`, and the remaining twelve store slots keep the fill `0`. -/
theorem incrementLine_amended :
    ((Grid2D.make Int 1 4 (some 0)).incrementLine 0 0 3 0).get 0 0 = some 1 ∧
    ((Grid2D.make Int 1 4 (some 0)).incrementLine 0 0 3 0).get 1 0 = some 1 ∧
    ((Grid2D.make Int 1 4 (some 0)).incrementLine 0 0 3 0).get 2 0 = some 1 ∧
    ((Grid2D.make Int 1 4 (some 0)).incrementLine 0 0 3 0).get 3 0 = some 1 ∧
    ((Grid2D.make Int 1 4 (some 0)).incrementLine 0 0 3 0).count (fun v => v == some 1) = 4 ∧
    ((Grid2D.make Int 1 4 (some 0)).incrementLine 0 0 3 0).count (fun v => v == some 0) = 12 := by
  decide

/-- **C8, counterexample**: on `new Grid3D(1, 1, 2)` (zero-filled, `#yMod = 1`,
`#zMod = 1`), `increment(0, 0, 1)` would, per the claim, increment store index
`x + y*height = 0`; instead the cell read back at `(0,0,0)` (store index 0) is
untouched and the one at `(0,0,1)` (store index `z * #zMod = 1`) is
incremented. -/
theorem grid3D_increment_cex :
    ((Grid3D.make 1 1 2 0).increment 0 0 1).get 0 0 0 = some 0 ∧
    ((Grid3D.make 1 1 2 0).increment 0 0 1).get 0 0 1 = some 1 := by
  decide

/-- **C10, counterexample**: `new Grid3D(1, 2, 1)` has `width = 2 > 1 = height`,
yet the linear address `x + y*height + z*(height*width)` is injective on its
in-range box `{(0,0,0), (1,0,0)}` — a `set` at either cell never shows up at
the other — refuting the claim that every grid with `width > height` has two
distinct in-range coordinates addressing the same cell. -/
theorem grid3D_alias_cex :
    ((Grid3D.make 1 2 1 0).set 0 0 0 5).get 1 0 0 = some 0 ∧
    ((Grid3D.make 1 2 1 0).set 1 0 0 5).get 0 0 0 = some 0 ∧
    (Grid3D.make 1 2 1 0).height < (Grid3D.make 1 2 1 0).width := by
  decide

/-- **C9**: when no store slot satisfies the predicate, `findIndex` yields
`-1`, `y = Math.floor(-1 / offset) = -1` and
`x = -1 - (-1)*offset = offset - 1 = max(width, height) - 1`: `find` returns
`(max(width, height) - 1, -1)` without signalling anything.  (The spec's data
model fixes `width`, `height` as positive, hence `0 < offset`.) -/
theorem grid2D_find_no_match {T : Type} (g : Grid2D T) (p : Option T → Bool)
    (hWF : g.WF) (hpos : 0 < g.offset) (hnone : ∀ v ∈ g.data, p v = false) :
    g.find p = (((max g.width g.height : Nat) : Int) - 1, -1) := by
  obtain ⟨hoff, hsize, hlen⟩ := hWF
  unfold Grid2D.find
  rw [List.findIdx?_eq_none_iff.mpr hnone]
  dsimp only
  rw [fdiv_neg_one (by omega : (0 : Int) < (g.offset : Int))]
  rw [Prod.mk.injEq]
  exact ⟨by omega, rfl⟩

/-- Witness for C9: a 3×3 grid of `7`s searched for `9`. -/
theorem grid2D_find_no_match_witness :
    (Grid2D.make Int 3 3 (some 7)).find (fun v => v == some 9) = (2, -1) := by
  have h := grid2D_find_no_match (Grid2D.make Int 3 3 (some 7)) (fun v => v == some 9)
    (grid2D_make_WF 3 3 (some 7)) (by decide) (by decide)
  simpa using h

theorem Grid2D.get_in_range {T : Type} (hh ww off sz : Nat) (data : List (Option T))
    {x y : Int} (hx0 : 0 ≤ x) (hxw : x < (ww : Int)) (hy0 : 0 ≤ y) (hyh : y < (hh : Int)) :
    (Grid2D.mk hh ww off sz data).get x y = (data[(x + y * (off : Int)).toNat]?).join := by
  unfold Grid2D.get
  dsimp only
  rw [if_neg (by omega), if_neg (by omega)]

theorem Grid2D.set_in_range {T : Type} (hh ww off sz : Nat) (data : List (Option T)) (v : T)
    {x y : Int} (hx0 : 0 ≤ x) (hxw : x < (ww : Int)) (hy0 : 0 ≤ y) (hyh : y < (hh : Int)) :
    (Grid2D.mk hh ww off sz data).set x y v =
      Grid2D.mk hh ww off sz (data.set (x + y * (off : Int)).toNat (some v)) := by
  unfold Grid2D.set
  dsimp only
  rw [if_neg (by omega), if_neg (by omega)]

/-- **C1**: `set` then `get` at the same in-range coordinate returns the value
just written, and `get` at every other in-range coordinate is unchanged. -/
theorem grid2D_set_then_get {T : Type} (g : Grid2D T) (x y : Int) (v : T) (hWF : g.WF)
    (hx0 : 0 ≤ x) (hxw : x < (g.width : Int)) (hy0 : 0 ≤ y) (hyh : y < (g.height : Int)) :
    (g.set x y v).get x y = some v ∧
    ∀ x2 y2 : Int, 0 ≤ x2 → x2 < (g.width : Int) → 0 ≤ y2 → y2 < (g.height : Int) →
      ¬(x2 = x ∧ y2 = y) → (g.set x y v).get x2 y2 = g.get x2 y2 := by
  obtain ⟨hoff, hsize, hlen⟩ := hWF
  have hxo : x < (g.offset : Int) := by omega
  have hyo : y < (g.offset : Int) := by omega
  have hidx : (x + y * (g.offset : Int)).toNat < g.data.length := by
    rw [hlen, hsize]
    exact idx_lt_sq hx0 hxo hy0 hyo
  rw [Grid2D.set_in_range g.height g.width g.offset g.size g.data v hx0 hxw hy0 hyh]
  constructor
  · rw [Grid2D.get_in_range g.height g.width g.offset g.size _ hx0 hxw hy0 hyh]
    rw [List.getElem?_set_self hidx]
    rfl
  · intro x2 y2 hx20 hx2w hy20 hy2h hne
    have hx2o : x2 < (g.offset : Int) := by omega
    rw [Grid2D.get_in_range g.height g.width g.offset g.size _ hx20 hx2w hy20 hy2h,
      Grid2D.get_in_range g.height g.width g.offset g.size g.data hx20 hx2w hy20 hy2h]
    rw [List.getElem?_set_ne ?hneq]
    case hneq =>
      intro heq
      have hi1 : 0 ≤ x + y * (g.offset : Int) :=
        add_nonneg hx0 (mul_nonneg hy0 (Int.natCast_nonneg _))
      have hi2 : 0 ≤ x2 + y2 * (g.offset : Int) :=
        add_nonneg hx20 (mul_nonneg hy20 (Int.natCast_nonneg _))
      obtain ⟨hxx, hyy⟩ := index_inj hx0 hxo hx20 hx2o
        (toNat_inj_of_nonneg hi1 hi2 heq)
      exact hne ⟨hxx.symm, hyy.symm⟩

/-- Witness for C1 on a concrete 3×3 grid. -/
theorem grid2D_set_then_get_witness :
    ((Grid2D.make Int 3 3 (some 0)).set 1 2 9).get 1 2 = some 9 ∧
    ((Grid2D.make Int 3 3 (some 0)).set 1 2 9).get 0 2 =
      (Grid2D.make Int 3 3 (some 0)).get 0 2 := by
  have h := grid2D_set_then_get (Grid2D.make Int 3 3 (some 0)) 1 2 9
    (grid2D_make_WF 3 3 (some 0)) (by decide) (by decide) (by decide) (by decide)
  exact ⟨h.1, h.2 0 2 (by decide) (by decide) (by decide) (by decide) (by decide)⟩

theorem Grid3D.get_def (g : Grid3D) (x y z : Int) :
    g.get x y z = if x + y * (g.yMod : Int) + z * (g.zMod : Int) < 0 then none
      else (g.data[(x + y * (g.yMod : Int) + z * (g.zMod : Int)).toNat]?).join := rfl

/-- **C8, amended**: `Grid3D.increment(x, y, z)` mutates the store at index
`z * #zMod = z * height * width` — the comma operator discards its FIRST
operand `x + y * #yMod`, so the `x` and `y` contributions (not the `z` one)
are ignored — while `get`/`set` both address the full, correct index
`x + y*height + z*(height*width)` (a `set` reads back through `get` at the
same coordinates). -/
theorem grid3D_increment_addresses (g : Grid3D) (hWF : g.WF) (x y z i : Int)
    (hz : 0 ≤ z) (hi0 : 0 ≤ i) (hiS : i < (g.size : Int)) :
    ((g.increment x y z).get i 0 0 =
      if i = z * (g.zMod : Int) then (g.get i 0 0).map (fun n => n + 1)
      else g.get i 0 0) ∧
    ∀ x2 y2 z2 v : Int, 0 ≤ x2 + y2 * (g.yMod : Int) + z2 * (g.zMod : Int) →
      x2 + y2 * (g.yMod : Int) + z2 * (g.zMod : Int) < (g.size : Int) →
      (g.set x2 y2 z2 v).get x2 y2 z2 = some v := by
  obtain ⟨hy, hzm, hs, hlen⟩ := hWF
  have hznn : (0 : Int) ≤ z * (g.zMod : Int) := mul_nonneg hz (Int.natCast_nonneg _)
  constructor
  · unfold Grid3D.increment
    rw [if_neg (by omega)]
    by_cases heq : i = z * (g.zMod : Int)
    · rw [if_pos heq]
      rw [Grid3D.get_def, Grid3D.get_def]
      dsimp only
      simp only [zero_mul, add_zero]
      rw [if_neg (by omega), if_neg (by omega), heq]
      rw [List.getElem?_set_self (by rw [hlen]; exact toNat_lt_of_int hznn (by omega))]
      rfl
    · rw [if_neg heq]
      rw [Grid3D.get_def, Grid3D.get_def]
      dsimp only
      simp only [zero_mul, add_zero]
      rw [if_neg (by omega), if_neg (by omega)]
      rw [List.getElem?_set_ne (fun hnat => heq (toNat_inj_of_nonneg hznn hi0 hnat).symm)]
  · intro x2 y2 z2 v h0 hS
    unfold Grid3D.set
    rw [if_neg (by omega)]
    rw [Grid3D.get_def]
    dsimp only
    rw [if_neg (by omega)]
    rw [List.getElem?_set_self (by rw [hlen]; exact toNat_lt_of_int h0 (by omega))]
    rfl

/-- Witness for C8 on a concrete 2×2×2 grid: `increment(1,1,1)` lands on store
index `z * #zMod = 4` (readable as `get(4, 0, 0)`), and a correct `set`
round-trips. -/
theorem grid3D_increment_addresses_witness :
    ((Grid3D.make 2 2 2 0).increment 1 1 1).get 4 0 0 = some 1 ∧
    ((Grid3D.make 2 2 2 0).set 0 1 0 9).get 0 1 0 = some 9 := by
  have h := grid3D_increment_addresses (Grid3D.make 2 2 2 0) (grid3D_make_WF 2 2 2 0)
    1 1 1 4 (by decide) (by decide) (by decide)
  refine ⟨?_, h.2 0 1 0 9 (by decide) (by decide)⟩
  rw [h.1]
  decide

/-- **C10, amended**: for every well-formed `Grid3D` with `width > height ≥ 2`
(and a positive depth), the linear address is not injective on the in-range
coordinate box: `(height, 0, 0)` and `(0, 1, 0)` are distinct in-range
coordinates with the same address `height`, and a `set` at `(0, 1, 0)` is
visible through `get` at `(height, 0, 0)`; in particular, in
`Grid3D(height=2, width=3, depth=1)`, `set(0, 1, 0, 5)` makes `get(2, 0, 0)`
return `5`.  (For `height = 1` the address IS injective on the box — see the
counterexample — which is why `height ≥ 2` is needed.) -/
theorem grid3D_nonInjective_addressing (g : Grid3D) (hWF : g.WF)
    (hh : 2 ≤ g.height) (hw : g.height < g.width) (hd : 1 ≤ g.depth) :
    (((g.height : Int), (0 : Int), (0 : Int)) ≠ ((0 : Int), (1 : Int), (0 : Int))) ∧
    (0 ≤ (g.height : Int) ∧ (g.height : Int) < (g.width : Int) ∧
      (0 : Int) < (g.height : Int) ∧ (1 : Int) < (g.height : Int) ∧
      (0 : Int) < (g.depth : Int)) ∧
    ((g.height : Int) + 0 * (g.yMod : Int) + 0 * (g.zMod : Int)
      = 0 + 1 * (g.yMod : Int) + 0 * (g.zMod : Int)) ∧
    (∀ v : Int, (g.set 0 1 0 v).get (g.height : Int) 0 0 = some v) ∧
    ((Grid3D.make 2 3 1 0).set 0 1 0 5).get 2 0 0 = some 5 := by
  obtain ⟨hy, hzm, hs, hlen⟩ := hWF
  have hsz : g.height < g.data.length := by
    rw [hlen, hs]
    calc g.height < g.width := hw
      _ ≤ g.height * g.width := Nat.le_mul_of_pos_left _ (by omega)
      _ ≤ g.height * g.width * g.depth := Nat.le_mul_of_pos_right _ (by omega)
  refine ⟨?_, ⟨by omega, by omega, by omega, by omega, by omega⟩, by omega, ?_, by decide⟩
  · intro hcon
    rw [Prod.mk.injEq, Prod.mk.injEq] at hcon
    omega
  · intro v
    unfold Grid3D.set
    rw [if_neg (by omega)]
    rw [Grid3D.get_def]
    dsimp only
    rw [if_neg (by omega)]
    have hidx : ((0 : Int) + 1 * (g.yMod : Int) + 0 * (g.zMod : Int)).toNat
        = ((g.height : Int) + 0 * (g.yMod : Int) + 0 * (g.zMod : Int)).toNat := by
      omega
    rw [← hidx]
    rw [List.getElem?_set_self (by omega)]
    rfl

/-- Witness for C10 on the concrete `Grid3D(2, 3, 1)` example. -/
theorem grid3D_nonInjective_addressing_witness :
    ((Grid3D.make 2 3 1 0).set 0 1 0 7).get ((Grid3D.make 2 3 1 0).height : Int) 0 0 =
      some 7 :=
  (grid3D_nonInjective_addressing (Grid3D.make 2 3 1 0) (grid3D_make_WF 2 3 1 0)
    (by decide) (by decide) (by decide)).2.2.2.1 7

/-- **C6, counterexample**: in `new Grid2D(1, 1)` the single in-range cell
`(0, 0)` is a corner cell (`x = 0 = width - 1` and `y = 0 = height - 1`), yet
`adjacent(0, 0)` is empty — 0 points, not the claimed 2. -/
theorem adjacent_corner_cex :
    (Grid2D.make Int 1 1 (some 0)).adjacent 0 0 = [] ∧
    ((0 : Int) = 0 ∨ (0 : Int) = ((Grid2D.make Int 1 1 (some 0)).width : Int) - 1) ∧
    ((0 : Int) = 0 ∨ (0 : Int) = ((Grid2D.make Int 1 1 (some 0)).height : Int) - 1) ∧
    ((Grid2D.make Int 1 1 (some 0)).adjacent 0 0).length ≠ 2 := by
  decide

/-- **C6, amended**: for in-range `(x, y)`, `adjacent(x, y)` is a sublist of
`[left, right, up, down]` (so its points appear in that order), contains only
coordinates inside `[0,width)×[0,height)`, returns exactly 4 points for an
interior cell and — provided `width ≥ 2` and `height ≥ 2` — exactly 2 points
for a corner cell.  (In a grid with `width = 1` or `height = 1` a corner has
fewer neighbors: see the counterexample.) -/
theorem grid2D_adjacent_shape {T : Type} (g : Grid2D T) (x y : Int)
    (hx0 : 0 ≤ x) (hxw : x < (g.width : Int)) (hy0 : 0 ≤ y) (hyh : y < (g.height : Int)) :
    (g.adjacent x y).Sublist [(x - 1, y), (x + 1, y), (x, y - 1), (x, y + 1)] ∧
    (∀ p ∈ g.adjacent x y,
      0 ≤ p.1 ∧ p.1 < (g.width : Int) ∧ 0 ≤ p.2 ∧ p.2 < (g.height : Int)) ∧
    (0 < x → x < (g.width : Int) - 1 → 0 < y → y < (g.height : Int) - 1 →
      (g.adjacent x y).length = 4) ∧
    ((x = 0 ∨ x = (g.width : Int) - 1) → (y = 0 ∨ y = (g.height : Int) - 1) →
      2 ≤ g.width → 2 ≤ g.height → (g.adjacent x y).length = 2) := by
  unfold Grid2D.adjacent
  refine ⟨?_, ?_, ?_, ?_⟩
  · show List.Sublist _ ((([(x - 1, y)] ++ [(x + 1, y)]) ++ [(x, y - 1)]) ++ [(x, y + 1)])
    exact List.Sublist.append
      (List.Sublist.append
        (List.Sublist.append (by split <;> simp) (by split <;> simp))
        (by split <;> simp))
      (by split <;> simp)
  · intro p hp
    rcases p with ⟨a, b⟩
    split_ifs at hp <;>
      simp only [List.mem_append, List.mem_singleton, List.not_mem_nil, or_false,
        false_or, Prod.mk.injEq] at hp <;>
      omega
  · intro h1 h2 h3 h4
    rw [if_pos (by omega), if_pos (by omega), if_pos (by omega), if_pos (by omega)]
    rfl
  · intro hx hy hw2 hh2
    rcases hx with rfl | hxe <;> rcases hy with rfl | hye
    · rw [if_neg (by omega), if_pos (by omega), if_neg (by omega), if_pos (by omega)]
      rfl
    · rw [if_neg (by omega), if_pos (by omega), if_pos (by omega), if_neg (by omega)]
      rfl
    · rw [if_pos (by omega), if_neg (by omega), if_neg (by omega), if_pos (by omega)]
      rfl
    · rw [if_pos (by omega), if_neg (by omega), if_pos (by omega), if_neg (by omega)]
      rfl

/-- Witness for C6 on a 3×3 grid: interior `(1,1)` has 4 neighbors and corner
`(0,0)` has 2. -/
theorem grid2D_adjacent_shape_witness :
    ((Grid2D.make Int 3 3 (some 0)).adjacent 1 1).length = 4 ∧
    ((Grid2D.make Int 3 3 (some 0)).adjacent 0 0).length = 2 := by
  have h1 := grid2D_adjacent_shape (Grid2D.make Int 3 3 (some 0)) 1 1
    (by decide) (by decide) (by decide) (by decide)
  have h0 := grid2D_adjacent_shape (Grid2D.make Int 3 3 (some 0)) 0 0
    (by decide) (by decide) (by decide) (by decide)
  exact ⟨h1.2.2.1 (by decide) (by decide) (by decide) (by decide),
    h0.2.2.2 (by decide) (by decide) (by decide) (by decide)⟩

/-! ### Diagonal machinery -/

theorem diagonals_eq_coords {T : Type} (g : Grid2D T) :
    g.diagonals = (diagCoords (g.width : Int) (g.height : Int)).map
      (List.map (fun p => g.get p.1 p.2)) := by
  unfold Grid2D.diagonals diagCoords
  rw [List.map_map]
  apply List.map_congr_left
  intro d hd
  rw [Function.comp_apply, List.map_map]
  rfl

theorem antiDiagonals_eq_coords {T : Type} (g : Grid2D T) :
    g.antiDiagonals = (antiDiagCoords (g.width : Int) (g.height : Int)).map
      (List.map (fun p => g.get p.1 p.2)) := by
  unfold Grid2D.antiDiagonals antiDiagCoords
  rw [List.map_map]
  apply List.map_congr_left
  intro d hd
  rw [Function.comp_apply, List.map_map]
  rfl

/-- Every coordinate pair emitted by `diagonals()` lies in the rectangle, and
every rectangle cell is emitted: the union of the diagonals is exactly the
`width × height` rectangle. -/
theorem mem_diagCoords_flatten {w h : Int} {p : Int × Int} :
    p ∈ (diagCoords w h).flatten ↔
      0 ≤ p.1 ∧ p.1 < w ∧ 0 ≤ p.2 ∧ p.2 < h := by
  rcases p with ⟨a, b⟩
  unfold diagCoords
  rw [List.mem_flatten]
  constructor
  · rintro ⟨L, hL, haL⟩
    obtain ⟨d, hd, rfl⟩ := List.mem_map.mp hL
    obtain ⟨hd0, hd1⟩ := mem_range_iff.mp hd
    obtain ⟨i, hi, he⟩ := List.mem_map.mp haL
    obtain ⟨hi0, hi1⟩ := mem_range_iff.mp hi
    rw [Prod.mk.injEq] at he
    obtain ⟨hea, heb⟩ := he
    unfold diagLen at hi1
    unfold diagStartX at hea
    unfold diagStartY at heb
    split_ifs at hi1 hea heb <;> omega
  · rintro ⟨ha0, haw, hb0, hbh⟩
    refine ⟨_, List.mem_map.mpr ⟨a - b + h - 1,
      mem_range_iff.mpr ⟨by omega, by omega⟩, rfl⟩, ?_⟩
    refine List.mem_map.mpr ⟨min a b, mem_range_iff.mpr ⟨by omega, ?_⟩, ?_⟩
    · unfold diagLen
      split_ifs <;> omega
    · rw [Prod.mk.injEq]
      unfold diagStartX diagStartY
      constructor <;> (split_ifs <;> omega)

/-- Cells emitted for diagonal index `d` all satisfy `x - y = d - height + 1`. -/
theorem diag_mem_key {w h d : Int} {p : Int × Int}
    (hp : p ∈ (range 0 (diagLen w h d - 1)).map
      (fun i => (diagStartX h d + i, diagStartY h d + i))) :
    p.1 - p.2 = d - h + 1 := by
  obtain ⟨i, hi, rfl⟩ := List.mem_map.mp hp
  dsimp only
  unfold diagStartX diagStartY
  split_ifs <;> omega

/-- No cell is emitted twice by `diagonals()`. -/
theorem diagCoords_flatten_nodup (w h : Int) : (diagCoords w h).flatten.Nodup := by
  rw [List.nodup_flatten]
  constructor
  · intro L hL
    obtain ⟨d, hd, rfl⟩ := List.mem_map.mp hL
    exact List.Nodup.map
      (fun i j hij => by rw [Prod.mk.injEq] at hij; omega) (range_nodup _ _)
  · unfold diagCoords
    rw [List.pairwise_map]
    refine List.Pairwise.imp ?_ (range_nodup 0 (w + h - 2))
    intro d1 d2 hne p hp1 hp2
    have k1 := diag_mem_key hp1
    have k2 := diag_mem_key hp2
    exact hne (by omega)

theorem diagCoords_flatten_length (w h : Int) :
    (diagCoords w h).flatten.length = w.toNat * h.toNat := by
  classical
  have hnd := diagCoords_flatten_nodup w h
  have hset : (diagCoords w h).flatten.toFinset
      = Finset.Ico (0 : Int) w ×ˢ Finset.Ico (0 : Int) h := by
    ext p
    rw [List.mem_toFinset, mem_diagCoords_flatten, Finset.mem_product,
      Finset.mem_Ico, Finset.mem_Ico]
    tauto
  have hcard := List.toFinset_card_of_nodup hnd
  rw [hset, Finset.card_product, Int.card_Ico, Int.card_Ico] at hcard
  simpa using hcard.symm

/-- For a square grid, the union of the anti-diagonals is exactly the
rectangle.  (For `width ≠ height` this can fail — see the C5 counterexample
for a 3-wide, 2-high grid — because `antiDiagonals()` computes the start row
of the late diagonals (`diagIdx ≥ width`) as `diagIdx - height + 1` where only
`diagIdx - width + 1` would stay on the anti-diagonal; shapes on which that
branch is unreachable, such as height-1 grids, are unaffected.) -/
theorem mem_antiDiagCoords_flatten_sq {n : Int} {p : Int × Int} :
    p ∈ (antiDiagCoords n n).flatten ↔
      0 ≤ p.1 ∧ p.1 < n ∧ 0 ≤ p.2 ∧ p.2 < n := by
  rcases p with ⟨a, b⟩
  unfold antiDiagCoords
  rw [List.mem_flatten]
  constructor
  · rintro ⟨L, hL, haL⟩
    obtain ⟨d, hd, rfl⟩ := List.mem_map.mp hL
    obtain ⟨hd0, hd1⟩ := mem_range_iff.mp hd
    obtain ⟨i, hi, he⟩ := List.mem_map.mp haL
    obtain ⟨hi0, hi1⟩ := mem_range_iff.mp hi
    rw [Prod.mk.injEq] at he
    obtain ⟨hea, heb⟩ := he
    unfold diagLen at hi1
    unfold antiStartX at hea
    unfold antiStartY at heb
    split_ifs at hi1 hea heb <;> omega
  · rintro ⟨ha0, haw, hb0, hbh⟩
    refine ⟨_, List.mem_map.mpr ⟨a + b,
      mem_range_iff.mpr ⟨by omega, by omega⟩, rfl⟩, ?_⟩
    refine List.mem_map.mpr ⟨if a + b < n then b else n - 1 - a,
      mem_range_iff.mpr ⟨by split_ifs <;> omega, ?_⟩, ?_⟩
    · unfold diagLen
      split_ifs <;> omega
    · rw [Prod.mk.injEq]
      unfold antiStartX antiStartY
      constructor <;> (split_ifs <;> omega)

/-- On a square grid, cells emitted for anti-diagonal index `d` all satisfy
`x + y = d`. -/
theorem anti_mem_key_sq {n d : Int} {p : Int × Int}
    (hp : p ∈ (range 0 (diagLen n n d - 1)).map
      (fun i => (antiStartX n d - i, antiStartY n n d + i))) :
    p.1 + p.2 = d := by
  obtain ⟨i, hi, rfl⟩ := List.mem_map.mp hp
  dsimp only
  unfold antiStartX antiStartY
  split_ifs <;> omega

theorem antiDiagCoords_flatten_nodup_sq (n : Int) :
    (antiDiagCoords n n).flatten.Nodup := by
  rw [List.nodup_flatten]
  constructor
  · intro L hL
    obtain ⟨d, hd, rfl⟩ := List.mem_map.mp hL
    exact List.Nodup.map
      (fun i j hij => by rw [Prod.mk.injEq] at hij; omega) (range_nodup _ _)
  · unfold antiDiagCoords
    rw [List.pairwise_map]
    refine List.Pairwise.imp ?_ (range_nodup 0 (n + n - 2))
    intro d1 d2 hne p hp1 hp2
    have k1 := anti_mem_key_sq hp1
    have k2 := anti_mem_key_sq hp2
    exact hne (by omega)

theorem antiDiagCoords_flatten_length_sq (n : Int) :
    (antiDiagCoords n n).flatten.length = n.toNat * n.toNat := by
  classical
  have hnd := antiDiagCoords_flatten_nodup_sq n
  have hset : (antiDiagCoords n n).flatten.toFinset
      = Finset.Ico (0 : Int) n ×ˢ Finset.Ico (0 : Int) n := by
    ext p
    rw [List.mem_toFinset, mem_antiDiagCoords_flatten_sq, Finset.mem_product,
      Finset.mem_Ico, Finset.mem_Ico]
    tauto
  have hcard := List.toFinset_card_of_nodup hnd
  rw [hset, Finset.card_product, Int.card_Ico] at hcard
  simpa using hcard.symm

/-- **C4, counterexample**: a 2×2 grid has `width + height - 2 = 2`, but
`diagonals()` returns 3 diagonals (`range(0, numDiags)` is inclusive, so the
outer loop runs `numDiags + 1 = width + height - 1` times, which is also the
true number of diagonals of the rectangle). -/
theorem diagonals_count_cex :
    (Grid2D.make Int 2 2 (some 0)).diagonals.length = 3 ∧
    (Grid2D.make Int 2 2 (some 0)).width + (Grid2D.make Int 2 2 (some 0)).height - 2
      = 2 := by
  decide

/-- **C4, amended**: `diagonals()` returns exactly `width + height - 1`
diagonals (index `d` ranging over `[0, width+height-2]` inclusive); diagonal
`d` has length `min(min(width, height), d < numDiags/2 ? d+1 : numDiags-d+1)`
(the up-then-down ramp capped at `min(width, height)`) and reads the cells
`(startX + i, startY + i)` with start `(0, height-d-1)` if `d < height`, else
`(d-height+1, 0)`, exactly as the claim's formulas state. -/
theorem diagonals_shape {T : Type} (g : Grid2D T) :
    g.diagonals.length = g.width + g.height - 1 ∧
    ∀ (d : Nat) (L : List (Option T)), g.diagonals[d]? = some L →
      L.length = (diagLen (g.width : Int) (g.height : Int) (d : Int)).toNat ∧
      L = (range 0 (diagLen (g.width : Int) (g.height : Int) (d : Int) - 1)).map
        (fun i => g.get (diagStartX (g.height : Int) (d : Int) + i)
          (diagStartY (g.height : Int) (d : Int) + i)) := by
  constructor
  · unfold Grid2D.diagonals
    rw [List.length_map, range_length]
    omega
  · intro d L hL
    unfold Grid2D.diagonals at hL
    have hd : d < (range 0 ((g.width : Int) + (g.height : Int) - 2)).length := by
      rcases Nat.lt_or_ge d (range 0 ((g.width : Int) + (g.height : Int) - 2)).length
        with hlt | hge
      · exact hlt
      · rw [List.getElem?_map, List.getElem?_eq_none hge] at hL
        simp at hL
    rw [range_length] at hd
    rw [List.getElem?_map, range_getElem? hd] at hL
    have hL2 := Option.some.inj hL
    rw [zero_add] at hL2
    constructor
    · rw [← hL2, List.length_map, range_length]
      omega
    · exact hL2.symm

/-- Witness for C4 on the 2-high, 3-wide grid: 4 diagonals; diagonal 1 (the
main one) has length `diagLen = 2`. -/
theorem diagonals_shape_witness :
    (Grid2D.make Int 2 3 (some 0)).diagonals.length = 4 ∧
    ([some 0, some 0] : List (Option Int)).length =
      (diagLen ((Grid2D.make Int 2 3 (some 0)).width : Int)
        ((Grid2D.make Int 2 3 (some 0)).height : Int) ((1 : Nat) : Int)).toNat := by
  have h := diagonals_shape (Grid2D.make Int 2 3 (some 0))
  exact ⟨h.1.trans (by decide), (h.2 1 [some 0, some 0] (by decide)).1⟩

/-- A height-2, width-3 grid holding six distinct values: cell `(x, y)` holds
`1 + x + 3*y`.  Used to exhibit the anti-diagonal coverage defect. -/
def cexGrid : Grid2D Int :=
  ((((((Grid2D.make Int 2 3 (some 0)).set 0 0 1).set 1 0 2).set 2 0 3).set 0 1 4).set
    1 1 5).set 2 1 6

/-- **C5, counterexample**: on the 2×3 grid above (`width = 3 ≠ 2 = height`),
concatenating `antiDiagonals()` yields
`[1, 2, 4, 3, 5, undefined]`: the last anti-diagonal reads the out-of-range
cell `(2, 2)` (hence `undefined`), and the value `6` stored at the in-range
cell `(2, 1)` is never produced — the anti-diagonals do **not** cover every
cell exactly once. -/
theorem antiDiagonals_coverage_cex :
    cexGrid.antiDiagonals.flatten = [some 1, some 2, some 4, some 3, some 5, none] ∧
    cexGrid.get 2 1 = some 6 ∧
    some 6 ∉ cexGrid.antiDiagonals.flatten ∧
    cexGrid.width * cexGrid.height = 6 := by
  decide

theorem flatten_map_singleton {α β : Type} (f : α → β) (l : List α) :
    (l.map (fun a => [f a])).flatten = l.map f := by
  induction l with
  | nil => rfl
  | cons a l ih => simp [ih]

/-- On a height-1 grid every anti-diagonal index satisfies `d < width`, so the
defective `d ≥ width` branch of `antiDiagonals()` is never taken: anti-diagonal
`d` is the single cell `(d, 0)`. -/
theorem antiDiagCoords_h1 (w : Int) :
    antiDiagCoords w 1 = (range 0 (w - 1)).map (fun d => [(d, 0)]) := by
  unfold antiDiagCoords
  have h1 : w + 1 - 2 = w - 1 := by ring
  rw [h1]
  apply List.map_congr_left
  intro d hd
  obtain ⟨hd0, hd1⟩ := mem_range_iff.mp hd
  have hlen : diagLen w 1 d = 1 := by
    unfold diagLen
    split_ifs <;> omega
  rw [hlen]
  have h0 : range 0 (1 - 1) = [0] := by decide
  rw [h0]
  simp only [List.map_cons, List.map_nil]
  unfold antiStartX antiStartY
  rw [if_pos (by omega : d < w), if_pos (by omega : d < w)]
  norm_num

/-- **C5, amended**: concatenating all `diagonals()` entries yields exactly
`width*height` values, reading every cell of the rectangle exactly once —
for every grid; the same holds for `antiDiagonals()` when `width = height`,
and also when `height = 1` (there the defective late-start branch is
unreachable).  It does not hold in general for `width ≠ height`: see the
counterexample for the 3-wide, 2-high grid.  Coverage is stated on the
coordinate lists `diagCoords`/`antiDiagCoords`, which the first conjunct of
each part ties to the values the methods return: the flattened coordinates
are duplicate-free and are exactly the rectangle. -/
theorem diagonals_cover_once {T : Type} (g : Grid2D T) :
    g.diagonals = (diagCoords (g.width : Int) (g.height : Int)).map
      (List.map (fun p => g.get p.1 p.2)) ∧
    g.diagonals.flatten.length = g.width * g.height ∧
    (diagCoords (g.width : Int) (g.height : Int)).flatten.Nodup ∧
    (∀ p : Int × Int, p ∈ (diagCoords (g.width : Int) (g.height : Int)).flatten ↔
      0 ≤ p.1 ∧ p.1 < (g.width : Int) ∧ 0 ≤ p.2 ∧ p.2 < (g.height : Int)) ∧
    (g.width = g.height →
      g.antiDiagonals = (antiDiagCoords (g.width : Int) (g.height : Int)).map
        (List.map (fun p => g.get p.1 p.2)) ∧
      g.antiDiagonals.flatten.length = g.width * g.height ∧
      (antiDiagCoords (g.width : Int) (g.height : Int)).flatten.Nodup ∧
      (∀ p : Int × Int,
        p ∈ (antiDiagCoords (g.width : Int) (g.height : Int)).flatten ↔
          0 ≤ p.1 ∧ p.1 < (g.width : Int) ∧ 0 ≤ p.2 ∧ p.2 < (g.height : Int))) ∧
    (g.height = 1 →
      g.antiDiagonals = (antiDiagCoords (g.width : Int) (g.height : Int)).map
        (List.map (fun p => g.get p.1 p.2)) ∧
      g.antiDiagonals.flatten.length = g.width * g.height ∧
      (antiDiagCoords (g.width : Int) (g.height : Int)).flatten.Nodup ∧
      (∀ p : Int × Int,
        p ∈ (antiDiagCoords (g.width : Int) (g.height : Int)).flatten ↔
          0 ≤ p.1 ∧ p.1 < (g.width : Int) ∧ 0 ≤ p.2 ∧ p.2 < (g.height : Int))) := by
  refine ⟨diagonals_eq_coords g, ?_, diagCoords_flatten_nodup _ _,
    fun p => mem_diagCoords_flatten, ?_, ?_⟩
  · rw [diagonals_eq_coords g, ← List.map_flatten, List.length_map,
      diagCoords_flatten_length]
    simp
  · intro hsq
    rw [hsq]
    refine ⟨?_, ?_, antiDiagCoords_flatten_nodup_sq _,
      fun p => mem_antiDiagCoords_flatten_sq⟩
    · have e := antiDiagonals_eq_coords g
      rw [hsq] at e
      exact e
    · have e := antiDiagonals_eq_coords g
      rw [hsq] at e
      rw [e, ← List.map_flatten, List.length_map, antiDiagCoords_flatten_length_sq]
      simp
  · intro h1
    rw [h1, Nat.cast_one]
    refine ⟨?_, ?_, ?_, ?_⟩
    · have e := antiDiagonals_eq_coords g
      rw [h1, Nat.cast_one] at e
      exact e
    · have e := antiDiagonals_eq_coords g
      rw [h1, Nat.cast_one] at e
      rw [e, ← List.map_flatten, List.length_map, antiDiagCoords_h1,
        flatten_map_singleton, List.length_map, range_length]
      omega
    · rw [antiDiagCoords_h1, flatten_map_singleton]
      exact List.Nodup.map
        (fun a b hab => by rw [Prod.mk.injEq] at hab; exact hab.1) (range_nodup _ _)
    · intro p
      rw [antiDiagCoords_h1, flatten_map_singleton]
      constructor
      · intro hp
        obtain ⟨d, hd, rfl⟩ := List.mem_map.mp hp
        obtain ⟨hd0, hd1⟩ := mem_range_iff.mp hd
        dsimp only
        exact ⟨by omega, by omega, by omega, by omega⟩
      · rintro ⟨hp1, hp2, hp3, hp4⟩
        rcases p with ⟨a, b⟩
        have hb : b = 0 := by omega
        subst hb
        exact List.mem_map.mpr ⟨a, mem_range_iff.mpr ⟨by omega, by omega⟩, rfl⟩

/-- Witness for C5: on a 2×2 grid both families concatenate to
`width * height = 4` values, and on a height-1, width-3 grid the
anti-diagonals concatenate to `width * height = 3` values. -/
theorem diagonals_cover_once_witness :
    (Grid2D.make Int 2 2 (some 0)).diagonals.flatten.length =
      (Grid2D.make Int 2 2 (some 0)).width * (Grid2D.make Int 2 2 (some 0)).height ∧
    (Grid2D.make Int 2 2 (some 0)).antiDiagonals.flatten.length =
      (Grid2D.make Int 2 2 (some 0)).height * (Grid2D.make Int 2 2 (some 0)).height ∧
    (Grid2D.make Int 1 3 (some 0)).antiDiagonals.flatten.length =
      (Grid2D.make Int 1 3 (some 0)).width * (Grid2D.make Int 1 3 (some 0)).height := by
  have h := diagonals_cover_once (Grid2D.make Int 2 2 (some 0))
  have h2 := diagonals_cover_once (Grid2D.make Int 1 3 (some 0))
  exact ⟨h.2.1, (h.2.2.2.2.1 rfl).2.1, (h2.2.2.2.2.2 rfl).2.1⟩
